import Mathlib

/-!
Verification of the AlertadorPY anti-phishing engine
(`src/Alerta.py` and `src/utils/checker.py`).

The Python source is shallowly embedded below.  Pure string processing is
translated to functions on `List Char`; the stateful rate limiter and the
SQLite-backed alert history become explicit state passing; the network is
modelled by an `HttpOutcome` argument describing what one outbound call to a
provider produced (an exception, or an HTTP status code together with the
parsed JSON body).  Parsed JSON dictionaries are association lists over a
small `Json` value type; timestamps (`time.time()` floats and ISO-8601
strings compared lexicographically) are modelled by integers, which preserves
the order-theoretic reasoning the code performs on them.
-/

/-- The four verdict strings `STATUS_CLEAN`, `STATUS_UNKNOWN`,
`STATUS_SUSPICIOUS`, `STATUS_PHISH` of `Alerta.py` / `checker.py`. -/
inductive Status where
  | clean
  | unknown
  | suspicious
  | phish
deriving DecidableEq, Repr

/-- The severity dictionary `status_order` built in `aggregate_checks`
(`Alerta.py` line 268): `{clean: 0, unknown: 1, suspicious: 2, phish: 3}`. -/
def statusOrder : Status → Nat
  | .clean => 0
  | .unknown => 1
  | .suspicious => 2
  | .phish => 3

/-- A scalar JSON value. -/
inductive JVal where
  | null
  | bool (b : Bool)
  | num (n : Int)
  | str (s : String)
deriving DecidableEq, Repr

/-- A JSON value as produced by decoding a provider response body: a scalar,
or one level of array/object nesting.  The adapters below never inspect a
response more than two levels deep, and values below that depth only travel
through unexamined, so this depth-two model is faithful to every inspection
the code performs. -/
inductive Json where
  | atom (v : JVal)
  | arr (xs : List JVal)
  | obj (kvs : List (String × JVal))
deriving DecidableEq, Repr

/-- The JSON string `s`. -/
def jstr (s : String) : Json := .atom (.str s)

/-- The JSON number `n`. -/
def jnum (n : Int) : Json := .atom (.num n)

/-- Python truthiness of a scalar JSON value. -/
def JVal.truthy : JVal → Bool
  | .null => false
  | .bool b => b
  | .num n => !(n == 0)
  | .str s => !(s == "")

/-- Python truthiness of a JSON value (`if verified and valid:`). -/
def Json.truthy : Json → Bool
  | .atom v => v.truthy
  | .arr xs => !xs.isEmpty
  | .obj kvs => !kvs.isEmpty

/-- A decoded JSON dictionary: the diagnostic `details` component of a
result, and the top-level shape of every provider response body. -/
abbrev Details := List (String × Json)

/-- `d.get(k)` on a Python dictionary: the first binding of `k`, if any. -/
def alookup {α : Type} (kvs : List (String × α)) (k : String) : Option α :=
  (kvs.find? (fun p => p.1 == k)).map (·.2)

/-- `d.get(k)` on a decoded top-level JSON dictionary. -/
def jlookup (kvs : Details) (k : String) : Option Json :=
  alookup kvs k

/-- Truthiness of `d.get(k)` on an inner dictionary: `None` is falsy. -/
def truthyOpt : Option JVal → Bool
  | none => false
  | some v => v.truthy

/-- An inner JSON dictionary re-viewed as a top-level one (used when the code
passes `j.get("results", {})`, an inner dictionary, along as `details`). -/
def liftKVs (kvs : List (String × JVal)) : Details :=
  kvs.map (fun p => (p.1, Json.atom p.2))

/-- The `(status, source, details)` triple `BlacklistResult` of `Alerta.py`. -/
abbrev BlacklistResult := Status × String × Details

/-- What one outbound provider call produced, seen from inside the adapter's
`try` block: either some raised exception (connection error, timeout,
JSON-decode failure, attribute error on a non-dict body — everything the
bare `except Exception` catches), or a response with an HTTP status code
and, when that code is 200, the decoded top-level JSON dictionary. -/
inductive HttpOutcome where
  | exn (msg : String)
  | resp (code : Nat) (body : Details)
deriving DecidableEq, Repr

namespace Alerta

/-- `j.get("results", {})` in `check_phishtank`: missing key defaults to the
empty dict; a present non-dict value makes the subsequent `.get` raise
(`none` here), which the surrounding `except` turns into an error result. -/
def resultsField (j : Details) : Option (List (String × JVal)) :=
  match jlookup j "results" with
  | none => some []
  | some (Json.obj kvs) => some kvs
  | some _ => none

/-- `check_phishtank` (`Alerta.py` lines 200–231).  The first argument is
`PHISHTANK_API_KEY` (`os.getenv` yields `None` when unset; the empty string
is likewise falsy under `if not PHISHTANK_API_KEY`). -/
def check_phishtank (key : Option String) (url : String) (o : HttpOutcome) :
    BlacklistResult :=
  match key with
  | none => (.unknown, "PhishTank", [("reason", jstr "no_api_key")])
  | some k =>
    if k = "" then (.unknown, "PhishTank", [("reason", jstr "no_api_key")])
    else
      match o with
      | .exn msg => (.unknown, "PhishTank", [("error", jstr msg)])
      | .resp code body =>
        if code = 200 then
          match resultsField body with
          | none => (.unknown, "PhishTank", [("error", jstr "attribute_error")])
          | some res =>
            let verified := truthyOpt (alookup res "in_database")
            let valid := truthyOpt (alookup res "valid")
            if verified && valid then (.phish, "PhishTank", liftKVs res)
            else if verified && !valid then (.suspicious, "PhishTank", liftKVs res)
            else (.clean, "PhishTank", liftKVs res)
        else (.unknown, "PhishTank", [("http", jnum code)])

/-- `check_openphish` (`Alerta.py` lines 234–237): a stub that performs no
lookup and always reports `unknown`. -/
def check_openphish (_url : String) : BlacklistResult :=
  (.unknown, "OpenPhish", [("note", jstr "feed_lookup_not_implemented")])

/-- `check_urlhaus` (`Alerta.py` lines 240–256).  Note that a
`query_status == "ok"` response is mapped to `suspicious` whatever its
`url_status` (the source comment: "status puede ser online/offline;
lo tratamos como sospechoso"). -/
def check_urlhaus (_url : String) (o : HttpOutcome) : BlacklistResult :=
  match o with
  | .exn msg => (.unknown, "URLhaus", [("error", jstr msg)])
  | .resp code j =>
    if code = 200 then
      if jlookup j "query_status" = some (jstr "ok") then (.suspicious, "URLhaus", j)
      else if jlookup j "query_status" = some (jstr "no_results") then (.clean, "URLhaus", j)
      else (.unknown, "URLhaus", j)
    else (.unknown, "URLhaus", [("http", jnum code)])

/-- The reduction loop of `aggregate_checks` (`Alerta.py` lines 268–276)
over the list delivered by `asyncio.gather(..., return_exceptions=True)`:
a `none` entry is an adapter that errored (`isinstance(res, Exception)`)
and is skipped; a later result replaces the running best only when its
severity is strictly greater. -/
def aggregate_from_results (results : List (Option BlacklistResult)) :
    BlacklistResult :=
  results.foldl
    (fun best res =>
      match res with
      | none => best
      | some r => if statusOrder best.1 < statusOrder r.1 then r else best)
    (.unknown, "none", [])

/-- `aggregate_checks` (`Alerta.py` lines 259–276): gather the three
adapters, in the fixed order PhishTank, URLhaus, OpenPhish, and reduce.
Each adapter's body is wrapped in its own exception handling, so none of
the gathered entries is an exception. -/
def aggregate_checks (key : Option String) (url : String)
    (oPhishtank oUrlhaus : HttpOutcome) : BlacklistResult :=
  aggregate_from_results
    [some (check_phishtank key url oPhishtank),
     some (check_urlhaus url oUrlhaus),
     some (check_openphish url)]

end Alerta

namespace Checker

/-- `check_urlhaus` (`utils/checker.py` lines 10–28): unlike the adapter of
the same name in `Alerta.py`, a `query_status == "ok"` response is refined
by `url_status` (`online` → phish, `offline` → suspicious, anything else
falls through to `unknown`). -/
def check_urlhaus (_url : String) (o : HttpOutcome) : BlacklistResult :=
  match o with
  | .exn msg => (.unknown, "URLhaus", [("error", jstr msg)])
  | .resp code j =>
    if code = 200 then
      if jlookup j "query_status" = some (jstr "ok") then
        if jlookup j "url_status" = some (jstr "online") then (.phish, "URLhaus", j)
        else if jlookup j "url_status" = some (jstr "offline") then (.suspicious, "URLhaus", j)
        else (.unknown, "URLhaus", j)
      else if jlookup j "query_status" = some (jstr "no_results") then (.clean, "URLhaus", j)
      else (.unknown, "URLhaus", j)
    else (.unknown, "URLhaus", [])

end Checker

/-! ## URL normalizer (`Alerta.py` lines 96–147) -/

/-- Python's `\s` character class (ASCII range), used both by `str.strip()`
and by the `[^\s]+` part of `URL_REGEX`. -/
def isSpaceChar (c : Char) : Bool :=
  c == ' ' || c == '\t' || c == '\n' || c == '\r' || c == '\x0b' || c == '\x0c'

/-- The literal characters of `"http://"`. -/
def httpPat : List Char := ['h', 't', 't', 'p', ':', '/', '/']

/-- The literal characters of `"https://"`. -/
def httpsPat : List Char := ['h', 't', 't', 'p', 's', ':', '/', '/']

/-- `url.lower().startswith(pat)` for a lowercase pattern `pat`. -/
def startsWithCI (pat : List Char) (cs : List Char) : Bool :=
  (cs.take pat.length).map Char.toLower == pat

/-- `url.replace("[.]", ".")`: replace every occurrence of the literal
`[.]`, scanning left to right and resuming after each replacement. -/
def replaceDefang : List Char → List Char
  | [] => []
  | [c] => [c]
  | [c, d] => [c, d]
  | c :: d :: e :: rest =>
    if c = '[' ∧ d = '.' ∧ e = ']' then '.' :: replaceDefang rest
    else c :: replaceDefang (d :: e :: rest)

/-- Remove the longest suffix of characters satisfying `p`. -/
def rstripWhile (p : Char → Bool) (cs : List Char) : List Char :=
  ((cs.reverse).dropWhile p).reverse

/-- `url.strip()` (ASCII whitespace). -/
def strip (cs : List Char) : List Char :=
  rstripWhile isSpaceChar (cs.dropWhile isSpaceChar)

/-- The characters of the rstrip set `".),;>\"]}"` (`Alerta.py` line 115). -/
def rstripChars : List Char := ['.', ')', ',', ';', '>', '"', ']', '}']

/-- `url.rstrip(".),;>\"]}")`. -/
def rstripPunct (cs : List Char) : List Char :=
  rstripWhile (fun c => rstripChars.contains c) cs

/-- Characters accepted in the host portion by the URL validity check. -/
def isHostChar (c : Char) : Bool :=
  c.isAlphanum || c == '-' || c == '.'

/-- Characters accepted in the path/query/fragment portion by the URL
validity check. -/
def isPathChar (c : Char) : Bool :=
  c.isAlphanum || c == '-' || c == '.' || c == '_' || c == '~' || c == ':' ||
  c == '/' || c == '?' || c == '#' || c == '@' || c == '!' || c == '$' ||
  c == '&' || c == '(' || c == ')' || c == '*' || c == '+' || c == ',' ||
  c == ';' || c == '=' || c == '%'

/-- Host-part check: nonempty, dotted, made of letters, digits, hyphens and
dots, and not starting or ending with a dot or hyphen. -/
def hostOk (h : List Char) : Bool :=
  !h.isEmpty && h.all isHostChar && h.contains '.' &&
  (match h.head? with
   | some c => !(c == '.') && !(c == '-')
   | none => false) &&
  (match h.getLast? with
   | some c => !(c == '.') && !(c == '-')
   | none => false)

/-- Modelled from the spec: the strict absolute-URL syntax check performed
by `validators.url` (§4.1 step 3); the `validators` package is an external
dependency, not part of this repository.  The string must carry an explicit
`http://` or `https://` scheme (case-insensitive), followed by a dotted
host and an optional path of printable, non-whitespace, bracket-free
characters. -/
def validUrlChars (cs : List Char) : Bool :=
  if startsWithCI httpPat cs then validHostPath (cs.drop 7)
  else if startsWithCI httpsPat cs then validHostPath (cs.drop 8)
  else false
where
  validHostPath (r : List Char) : Bool :=
    hostOk (r.takeWhile (fun c => !(c == '/'))) &&
    (r.dropWhile (fun c => !(c == '/'))).all isPathChar

/-- `validators.url(url)` on a Lean string. -/
def validators_url (s : String) : Bool := validUrlChars s.toList

/-- The candidate-rewriting half of `normalize_url` (`Alerta.py` lines
112–117): strip whitespace, undo `[.]` defanging, strip trailing
punctuation, and prepend `http://` when no scheme is present. -/
def normalizeChars (cs : List Char) : List Char :=
  let u2 := replaceDefang (strip cs)
  let u3 := rstripPunct u2
  if startsWithCI httpPat u3 || startsWithCI httpsPat u3 then u3
  else httpPat ++ u3

/-- `normalize_url` (`Alerta.py` lines 112–122): rewrite the candidate and
keep it only if it passes the `validators.url` syntax check (any exception
from the check counts as failure). -/
def normalize_url (s : String) : Option String :=
  let u := normalizeChars s.toList
  if validUrlChars u then some (String.mk u) else none

/-! ## URL extraction (`Alerta.py` lines 96, 125–147)

`URL_REGEX = re.compile(r"https?://[^\s]+", re.IGNORECASE)` and
`extract_urls`.  `re.finditer` yields the leftmost matches in order,
resuming after each match. -/

/-- The number of characters `https?://` consumes at the head of `cs`
(case-insensitively), if it matches there. -/
def schemeLen (cs : List Char) : Option Nat :=
  if startsWithCI httpPat cs then some 7
  else if startsWithCI httpsPat cs then some 8
  else none

/-- One attempt of `URL_REGEX` at the head of `cs`: `https?://` followed by
at least one non-whitespace character, matched greedily.  Returns the
matched text and the remaining input. -/
def matchHttpAt (cs : List Char) : Option (List Char × List Char) :=
  match schemeLen cs with
  | none => none
  | some n =>
    let body := (cs.drop n).takeWhile (fun c => !isSpaceChar c)
    if body.isEmpty then none
    else some (cs.take n ++ body, (cs.drop n).dropWhile (fun c => !isSpaceChar c))

/-- The scan of `re.finditer`: try to match at each position, and resume
after the end of every match.  Each step consumes at least one character
while the fuel drops by exactly one, so fuel `cs.length` (as used in
`scanUrls`) never runs out before the input is exhausted. -/
def scanUrlsAux : Nat → List Char → List (List Char)
  | 0, _ => []
  | _, [] => []
  | fuel + 1, c :: cs =>
    match matchHttpAt (c :: cs) with
    | some (m, rest) => m :: scanUrlsAux fuel rest
    | none => scanUrlsAux fuel cs

/-- All matches of `URL_REGEX` in `text`, in first-seen order. -/
def scanUrls (text : String) : List String :=
  (scanUrlsAux text.toList.length text.toList).map String.mk

/-- `dict.fromkeys(...)` deduplication: keep the first occurrence of each
element, preserving order. -/
def dedupKeepFirst (l : List String) : List String :=
  go [] l
where
  go (seen : List String) : List String → List String
    | [] => []
    | x :: xs => if seen.contains x then go seen xs else x :: go (x :: seen) xs

/-- The contents of the Python set `found` built by `extract_urls`
(`Alerta.py` lines 126–140), listed here in insertion order: the `e.url`
of every `TEXT_LINK` entity (plain `URL` entities are skipped by the code —
their branch is `pass`), then every regex match.  A CPython `set` does not
promise to iterate in this (or any particular) order, so enumeration order
is kept separate: see `extract_urls_with_order`. -/
def candidates (text : String) (entityUrls : List String) : List String :=
  dedupKeepFirst (entityUrls ++ scanUrls text)

/-- The rest of `extract_urls` (`Alerta.py` lines 141–147), parametrized by
`iterOrder`, the order in which `for u in found:` happens to enumerate the
set: normalize each candidate, drop the invalid ones, and deduplicate
preserving the order of `normed`.  Runs of the program correspond to
instantiations where `iterOrder` is a permutation of
`candidates text entityUrls`. -/
def extract_urls_with_order (iterOrder : List String) : List String :=
  dedupKeepFirst (iterOrder.filterMap normalize_url)

/-! ## `aggregate_checks` of `utils/checker.py` (lines 30–38) -/

namespace Checker

/-- `aggregate_checks` (`utils/checker.py` lines 30–38): validate the URL,
then consult URLhaus only. -/
def aggregate_checks (url : String) (o : HttpOutcome) : BlacklistResult :=
  if !validators_url url then (.unknown, "invalid", [("reason", jstr "invalid_url")])
  else check_urlhaus url o

end Checker

/-! ## Rate limiter (`Alerta.py` lines 88–89, 105, 280–290)

`_rate_cache` maps each `chat_id` to an independent list of accepted
submission timestamps; `user_allowed` below is the per-`chat_id` body of
the Python function, taking that bucket explicitly and returning the
decision together with the bucket written back to the cache.
`time.time()` values are modelled as integers. -/

/-- `user_allowed` (`Alerta.py` lines 280–290) acting on one submitter's
bucket, with the limit `N = USER_RATE_LIMIT_N` and window
`W = USER_RATE_LIMIT_WINDOW` as parameters (defaults 5 and 60). -/
def user_allowed (N W : Nat) (now : Int) (bucket : List Int) :
    Bool × List Int :=
  let pruned := bucket.filter (fun t => now - (W : Int) ≤ t)
  if N ≤ pruned.length then (false, pruned)
  else (true, pruned ++ [now])

/-- A sequence of `user_allowed` calls for one submitter at the given times,
threading the cached bucket; returns the decisions and the final bucket. -/
def runAllow (N W : Nat) : List Int → List Int → List Bool × List Int
  | [], bucket => ([], bucket)
  | t :: ts, bucket =>
    let step := user_allowed N W t bucket
    let rest := runAllow N W ts step.2
    (step.1 :: rest.1, rest.2)

/-! ## Alert deduplication (`Alerta.py` lines 84, 355–391, 405–412)

The SQLite tables `reports(id, url, created_at)` and
`alerts(report_id, sent_to, created_at)` are modelled by lists (only the
columns the dedup query reads are kept), and ISO-8601 `created_at` strings,
which the query compares lexicographically — equivalently, chronologically —
are modelled as integer timestamps in seconds. -/

/-- The persistent state the dedup check reads and the report/broadcast pair
writes. -/
structure DB where
  reports : List (Nat × String × Int)
  alerts : List (Nat × Int × Int)
  nextId : Nat
deriving Repr

/-- `already_alerted_recently` (`Alerta.py` lines 355–362): is there a
report for exactly this URL, created within the trailing window of
`windowH` hours (`ALERT_DEDUP_WINDOW_H`, default 24), that some alert row
references? -/
def already_alerted_recently (windowH : Nat) (db : DB) (now : Int)
    (url : String) : Bool :=
  let cutoff := now - (windowH : Int) * 3600
  db.reports.any (fun r =>
    r.2.1 == url && cutoff ≤ r.2.2 &&
    db.alerts.any (fun a => a.1 == r.1))

/-- The broadcast guard of `handle_report` (`Alerta.py` line 410):
`if not await already_alerted_recently(conn, url)`. -/
def should_alert (windowH : Nat) (db : DB) (now : Int) (url : String) :
    Bool :=
  !already_alerted_recently windowH db now url

/-- Recording one alerted report at time `t`: `save_report` inserts the
report row (`Alerta.py` lines 341–352, with the fresh SQLite rowid) and
`broadcast_alert` inserts an alert row for a delivered recipient
(lines 384–387). -/
def record_alert (db : DB) (url : String) (t : Int) (recipient : Int) : DB :=
  { reports := db.reports ++ [(db.nextId, url, t)]
    alerts := db.alerts ++ [(db.nextId, recipient, t)]
    nextId := db.nextId + 1 }

/-! ## Aggregation lemmas -/

/-- The more severe of two verdicts under `statusOrder` (the running
maximum computed by the reduction loop; a tie keeps the left argument,
matching the strict `>` comparison in the code). -/
def maxStatus (a b : Status) : Status :=
  if statusOrder a < statusOrder b then b else a

/-- The maximal severity occurring in a list of results (`0`, the severity
of `clean`, for the empty list). -/
def maxSeverity (rs : List BlacklistResult) : Nat :=
  rs.foldr (fun r m => max (statusOrder r.1) m) 0

/-- Follows the spec's words (§4.3 tie-break rule): the result of the first
adapter, in the fixed adapter ordering, whose verdict has the maximal
severity; `(unknown, "none", {})` for an empty result set. -/
def firstMaxResult (rs : List BlacklistResult) : BlacklistResult :=
  match rs.find? (fun r => statusOrder r.1 == maxSeverity rs) with
  | some r => r
  | none => (.unknown, "none", [])

lemma aggregate_three_fst (r1 r2 r3 : BlacklistResult) :
    (Alerta.aggregate_from_results [some r1, some r2, some r3]).1 =
      maxStatus .unknown (maxStatus r1.1 (maxStatus r2.1 r3.1)) := by
  obtain ⟨a, sa, da⟩ := r1
  obtain ⟨b, sb, db⟩ := r2
  obtain ⟨c, sc, dc⟩ := r3
  cases a <;> cases b <;> cases c <;> rfl

lemma maxStatus_unknown_absorb (x y : Status) :
    maxStatus .unknown (maxStatus x (maxStatus y .unknown)) =
      maxStatus x (maxStatus y .unknown) := by
  cases x <;> cases y <;> rfl

lemma maxStatus_eq_phish {x y z : Status}
    (h : x = .phish ∨ y = .phish ∨ z = .phish) :
    maxStatus x (maxStatus y z) = .phish := by
  rcases h with rfl | rfl | rfl
  · cases y <;> cases z <;> rfl
  · cases x <;> cases z <;> rfl
  · cases x <;> cases y <;> rfl

lemma aggregate_all_none :
    ∀ rs : List (Option BlacklistResult), (∀ x ∈ rs, x = none) →
      Alerta.aggregate_from_results rs = (.unknown, "none", []) := by
  intro rs
  induction rs with
  | nil => intro _; rfl
  | cons x rs ih =>
    intro h
    have hx := h x (List.mem_cons_self x rs)
    subst hx
    exact ih (fun y hy => h y (List.mem_cons_of_mem _ hy))

lemma aggregate_three_firstMax (r1 r2 r3 : BlacklistResult) :
    Alerta.aggregate_from_results [some r1, some r2, some r3] =
      if 2 ≤ maxSeverity [r1, r2, r3] then firstMaxResult [r1, r2, r3]
      else (.unknown, "none", []) := by
  obtain ⟨a, sa, da⟩ := r1
  obtain ⟨b, sb, db⟩ := r2
  obtain ⟨c, sc, dc⟩ := r3
  cases a <;> cases b <;> cases c <;> rfl

/-- Claim C1: `aggregate_checks` returns the maximum-severity verdict,
under `clean < unknown < suspicious < phish`, among the adapters that did
not error — here all three of them, since each adapter catches its own
exceptions and so none of the gathered entries is ever an exception; in
particular one `phish` result forces a `phish` aggregate, and a gathered
list in which every entry is an error aggregates to `unknown` with source
`"none"` and no evidence. -/
theorem aggregate_severity_max (key : Option String) (url : String)
    (o1 o2 : HttpOutcome) :
    ((Alerta.aggregate_checks key url o1 o2).1 =
      maxStatus (Alerta.check_phishtank key url o1).1
        (maxStatus (Alerta.check_urlhaus url o2).1
          (Alerta.check_openphish url).1))
    ∧ ((Alerta.check_phishtank key url o1).1 = .phish ∨
        (Alerta.check_urlhaus url o2).1 = .phish ∨
        (Alerta.check_openphish url).1 = .phish →
        (Alerta.aggregate_checks key url o1 o2).1 = .phish)
    ∧ (∀ rs : List (Option BlacklistResult), (∀ x ∈ rs, x = none) →
        Alerta.aggregate_from_results rs = (.unknown, "none", [])) := by
  have hop : (Alerta.check_openphish url).1 = .unknown := rfl
  have hmain : (Alerta.aggregate_checks key url o1 o2).1 =
      maxStatus (Alerta.check_phishtank key url o1).1
        (maxStatus (Alerta.check_urlhaus url o2).1
          (Alerta.check_openphish url).1) := by
    have h := aggregate_three_fst (Alerta.check_phishtank key url o1)
      (Alerta.check_urlhaus url o2) (Alerta.check_openphish url)
    refine h.trans ?_
    rw [hop]
    exact maxStatus_unknown_absorb _ _
  refine ⟨hmain, ?_, aggregate_all_none⟩
  intro hphish
  rw [hmain]
  exact maxStatus_eq_phish hphish

/-- Witness for C1: a concrete PhishTank `phish` response dominates a
URLhaus network error, and an all-error list aggregates to the default. -/
theorem aggregate_severity_max_witness :
    (Alerta.aggregate_checks (some "k") "http://x.example"
      (.resp 200 [("results", Json.obj
        [("in_database", JVal.bool true), ("valid", JVal.bool true)])])
      (.exn "boom")).1 = .phish
    ∧ Alerta.aggregate_from_results [none, none] = (.unknown, "none", []) := by
  constructor
  · exact (aggregate_severity_max (some "k") "http://x.example"
      (.resp 200 [("results", Json.obj
        [("in_database", JVal.bool true), ("valid", JVal.bool true)])])
      (.exn "boom")).2.1 (Or.inl rfl)
  · exact (aggregate_severity_max (some "k") "http://x.example"
      (.exn "a") (.exn "b")).2.2 [none, none] (by simp)

/-- Counterexample to claim C2 as stated: with PhishTank reporting `clean`
and URLhaus reporting `unknown`, the maximal severity is `unknown` and it
is shared by URLhaus and OpenPhish (the tie-break clause's premise), yet
the aggregate is `(unknown, "none", {})`, not the triple of the first
maximal adapter (URLhaus) — the loop only replaces its `(unknown, "none",
{})` seed on a strictly greater severity, so an `unknown`-severity winner
never overwrites the seed's source. -/
theorem aggregate_tiebreak_counterexample :
    Alerta.aggregate_checks (some "k") "http://x.example"
        (.resp 200 []) (.resp 200 [("query_status", jstr "error")]) =
      (.unknown, "none", [])
    ∧ (firstMaxResult
        [Alerta.check_phishtank (some "k") "http://x.example" (.resp 200 []),
         Alerta.check_urlhaus "http://x.example"
           (.resp 200 [("query_status", jstr "error")]),
         Alerta.check_openphish "http://x.example"]).2.1 = "URLhaus"
    ∧ ("none" : String) ≠ "URLhaus"
    ∧ (Alerta.check_urlhaus "http://x.example"
        (.resp 200 [("query_status", jstr "error")])).1 =
      (Alerta.check_openphish "http://x.example").1 :=
  ⟨rfl, rfl, by decide, rfl⟩

/-- Claim C2, amended: the first-encountered adapter wins a tie at the
maximal severity only when that severity exceeds `unknown` (that is, for
`suspicious` and `phish`); whenever the maximal severity is `unknown` or
`clean` — in particular when the result set is empty, every adapter failed,
or every adapter returned `unknown` — the aggregate is exactly
`(unknown, "none", {})`. -/
theorem aggregate_tiebreak (key : Option String) (url : String)
    (o1 o2 : HttpOutcome) :
    (Alerta.aggregate_checks key url o1 o2 =
      if 2 ≤ maxSeverity [Alerta.check_phishtank key url o1,
          Alerta.check_urlhaus url o2, Alerta.check_openphish url] then
        firstMaxResult [Alerta.check_phishtank key url o1,
          Alerta.check_urlhaus url o2, Alerta.check_openphish url]
      else (.unknown, "none", []))
    ∧ Alerta.aggregate_from_results [] = (.unknown, "none", [])
    ∧ Alerta.aggregate_from_results [none, none, none] = (.unknown, "none", []) :=
  ⟨aggregate_three_firstMax _ _ _, rfl, rfl⟩

/-! ## URLhaus mapping (claims C3, C4, C10) -/

/-- Modelled from the spec (§4.2 mapping rules, instantiated at URLhaus's
response fields): a confirmed-malicious report (`query_status` `"ok"` with
`url_status` `"online"`) is `phish`; a known-but-currently-inactive report
(`url_status` `"offline"`) is `suspicious`; a not-found report
(`query_status` `"no_results"`) is `clean`; anything else is `unknown`. -/
def specUrlhausStatus (j : Details) : Status :=
  if jlookup j "query_status" = some (jstr "ok") then
    if jlookup j "url_status" = some (jstr "online") then .phish
    else if jlookup j "url_status" = some (jstr "offline") then .suspicious
    else .unknown
  else if jlookup j "query_status" = some (jstr "no_results") then .clean
  else .unknown

/-- Counterexample to claim C3 as stated: on a confirmed-malicious report
(`query_status` `"ok"`, `url_status` `"online"`) the `Alerta.py` adapter
answers `suspicious`, not `phish`, so the two implementations differ. -/
theorem urlhaus_mapping_counterexample :
    Alerta.check_urlhaus "http://x.example"
        (.resp 200 [("query_status", jstr "ok"), ("url_status", jstr "online")]) =
      (.suspicious, "URLhaus",
        [("query_status", jstr "ok"), ("url_status", jstr "online")])
    ∧ Checker.check_urlhaus "http://x.example"
        (.resp 200 [("query_status", jstr "ok"), ("url_status", jstr "online")]) =
      (.phish, "URLhaus",
        [("query_status", jstr "ok"), ("url_status", jstr "online")])
    ∧ Status.suspicious ≠ Status.phish :=
  ⟨rfl, rfl, by decide⟩

/-- Claim C3, amended: on a 200 response, the `utils/checker.py` URLhaus
adapter follows the spec's mapping exactly, while the `Alerta.py` adapter
maps every `query_status = "ok"` report to `suspicious` regardless of
`url_status` and agrees with the spec's mapping on all other reports; the
two implementations therefore differ exactly on the `"ok"` reports the
spec's mapping does not send to `suspicious`. -/
theorem urlhaus_mapping_amended (url : String) (j : Details) :
    (Checker.check_urlhaus url (.resp 200 j)).1 = specUrlhausStatus j
    ∧ (Alerta.check_urlhaus url (.resp 200 j)).1 =
        (if jlookup j "query_status" = some (jstr "ok") then .suspicious
         else specUrlhausStatus j) := by
  constructor
  · by_cases hq : jlookup j "query_status" = some (jstr "ok")
    · by_cases hon : jlookup j "url_status" = some (jstr "online")
      · simp [Checker.check_urlhaus, specUrlhausStatus, hq, hon]
      · by_cases hoff : jlookup j "url_status" = some (jstr "offline")
        · simp [Checker.check_urlhaus, specUrlhausStatus, hq, hon, hoff,
            show jstr "offline" ≠ jstr "online" from by decide]
        · simp [Checker.check_urlhaus, specUrlhausStatus, hq, hon, hoff]
    · by_cases hnr : jlookup j "query_status" = some (jstr "no_results")
      · simp [Checker.check_urlhaus, specUrlhausStatus, hq, hnr,
          show jstr "no_results" ≠ jstr "ok" from by decide]
      · simp [Checker.check_urlhaus, specUrlhausStatus, hq, hnr]
  · by_cases hq : jlookup j "query_status" = some (jstr "ok")
    · simp [Alerta.check_urlhaus, hq]
    · by_cases hnr : jlookup j "query_status" = some (jstr "no_results")
      · simp [Alerta.check_urlhaus, specUrlhausStatus, hq, hnr,
          show jstr "no_results" ≠ jstr "ok" from by decide]
      · simp [Alerta.check_urlhaus, specUrlhausStatus, hq, hnr]

/-- Claim C4: every failure mode — missing credential, raised exception
(timeouts, connection failures and JSON-decode errors all surface as
exceptions inside the adapters' `try` blocks), and non-200 HTTP status —
resolves to `(unknown, <source_name>, {diagnostic info})` in each adapter,
and a missing PhishTank key yields that result uniformly in the network
outcome, i.e. without depending on (or making) any network call. -/
theorem adapters_failure_unknown :
    (∀ (url : String) (o : HttpOutcome),
      Alerta.check_phishtank none url o =
        (.unknown, "PhishTank", [("reason", jstr "no_api_key")]))
    ∧ (∀ url k msg : String, k ≠ "" →
      Alerta.check_phishtank (some k) url (.exn msg) =
        (.unknown, "PhishTank", [("error", jstr msg)]))
    ∧ (∀ (url k : String) (code : Nat) (body : Details), k ≠ "" → code ≠ 200 →
      Alerta.check_phishtank (some k) url (.resp code body) =
        (.unknown, "PhishTank", [("http", jnum code)]))
    ∧ (∀ url msg : String,
      Alerta.check_urlhaus url (.exn msg) =
        (.unknown, "URLhaus", [("error", jstr msg)]))
    ∧ (∀ (url : String) (code : Nat) (body : Details), code ≠ 200 →
      Alerta.check_urlhaus url (.resp code body) =
        (.unknown, "URLhaus", [("http", jnum code)]))
    ∧ (∀ url msg : String,
      Checker.check_urlhaus url (.exn msg) =
        (.unknown, "URLhaus", [("error", jstr msg)]))
    ∧ (∀ (url : String) (code : Nat) (body : Details), code ≠ 200 →
      Checker.check_urlhaus url (.resp code body) =
        (.unknown, "URLhaus", []))
    ∧ (∀ url : String, (Alerta.check_openphish url).1 = .unknown) := by
  refine ⟨fun url o => rfl, ?_, ?_, fun url msg => rfl, ?_, fun url msg => rfl,
    ?_, fun url => rfl⟩
  · intro url k msg hk
    simp [Alerta.check_phishtank, hk]
  · intro url k code body hk hcode
    simp [Alerta.check_phishtank, hk, hcode]
  · intro url code body hcode
    simp [Alerta.check_urlhaus, hcode]
  · intro url code body hcode
    simp [Checker.check_urlhaus, hcode]

/-- Witness for C4: each failure mode evaluated at concrete inputs. -/
theorem adapters_failure_unknown_witness :
    Alerta.check_phishtank none "http://x.example" (.resp 200 []) =
      (.unknown, "PhishTank", [("reason", jstr "no_api_key")])
    ∧ Alerta.check_phishtank (some "k") "http://x.example" (.exn "timeout") =
      (.unknown, "PhishTank", [("error", jstr "timeout")])
    ∧ Alerta.check_phishtank (some "k") "http://x.example" (.resp 503 []) =
      (.unknown, "PhishTank", [("http", jnum 503)])
    ∧ Alerta.check_urlhaus "http://x.example" (.exn "timeout") =
      (.unknown, "URLhaus", [("error", jstr "timeout")])
    ∧ Alerta.check_urlhaus "http://x.example" (.resp 503 []) =
      (.unknown, "URLhaus", [("http", jnum 503)])
    ∧ Checker.check_urlhaus "http://x.example" (.exn "timeout") =
      (.unknown, "URLhaus", [("error", jstr "timeout")])
    ∧ Checker.check_urlhaus "http://x.example" (.resp 503 []) =
      (.unknown, "URLhaus", [])
    ∧ (Alerta.check_openphish "http://x.example").1 = .unknown :=
  ⟨adapters_failure_unknown.1 "http://x.example" (.resp 200 []),
   adapters_failure_unknown.2.1 "http://x.example" "k" "timeout" (by decide),
   adapters_failure_unknown.2.2.1 "http://x.example" "k" 503 [] (by decide) (by decide),
   adapters_failure_unknown.2.2.2.1 "http://x.example" "timeout",
   adapters_failure_unknown.2.2.2.2.1 "http://x.example" 503 [] (by decide),
   adapters_failure_unknown.2.2.2.2.2.1 "http://x.example" "timeout",
   adapters_failure_unknown.2.2.2.2.2.2.1 "http://x.example" 503 [] (by decide),
   adapters_failure_unknown.2.2.2.2.2.2.2 "http://x.example"⟩

/-- Claim C10: `aggregate_checks` in `utils/checker.py` answers
`(unknown, "invalid", {"reason": "invalid_url"})` for every string the URL
validator rejects, uniformly in the network outcome — the rejection branch
returns before the client session is opened, so no network call happens. -/
theorem checker_invalid_url (url : String) (h : validators_url url = false) :
    ∀ o : HttpOutcome,
      Checker.aggregate_checks url o =
        (.unknown, "invalid", [("reason", jstr "invalid_url")]) := by
  intro o
  simp [Checker.aggregate_checks, h]

/-- Witness for C10: the validator rejects `"notaurl"` and the checker
aggregate surfaces the `invalid` triple on it. -/
theorem checker_invalid_url_witness :
    Checker.aggregate_checks "notaurl" (.exn "net down") =
      (.unknown, "invalid", [("reason", jstr "invalid_url")]) :=
  checker_invalid_url "notaurl" (by decide) (.exn "net down")

/-! ## Rate limiter lemmas (claim C5) -/

lemma user_allowed_keep_all (N W : Nat) (now : Int) (bucket : List Int)
    (h : ∀ x ∈ bucket, now - (W : Int) ≤ x) :
    bucket.filter (fun t => now - (W : Int) ≤ t) = bucket :=
  List.filter_eq_self.mpr (fun a ha => decide_eq_true (h a ha))

lemma runAllow_accepts (N W : Nat) (t0 : Int) :
    ∀ (ts bucket : List Int),
      (∀ x ∈ bucket, t0 ≤ x ∧ x ≤ t0 + (W : Int)) →
      (∀ x ∈ ts, t0 ≤ x ∧ x ≤ t0 + (W : Int)) →
      bucket.length + ts.length ≤ N →
      runAllow N W ts bucket = (List.replicate ts.length true, bucket ++ ts) := by
  intro ts
  induction ts with
  | nil => intro bucket _ _ _; simp [runAllow]
  | cons t ts ih =>
    intro bucket hb hts hlen
    have ht : t0 ≤ t ∧ t ≤ t0 + (W : Int) := hts t (List.mem_cons_self t ts)
    have hfil : bucket.filter (fun x => t - (W : Int) ≤ x) = bucket := by
      refine user_allowed_keep_all N W t bucket (fun x hx => ?_)
      have := (hb x hx).1
      omega
    have hlt : ¬ N ≤ bucket.length := by
      simp only [List.length_cons] at hlen
      omega
    have hstep : user_allowed N W t bucket = (true, bucket ++ [t]) := by
      simp only [user_allowed]
      rw [hfil, if_neg hlt]
    have hbt : ∀ x ∈ bucket ++ [t], t0 ≤ x ∧ x ≤ t0 + (W : Int) := by
      intro x hx
      rcases List.mem_append.mp hx with hx | hx
      · exact hb x hx
      · rcases List.mem_singleton.mp hx with rfl
        exact ht
    have hrest := ih (bucket ++ [t]) hbt
      (fun x hx => hts x (List.mem_cons_of_mem _ hx))
      (by simp only [List.length_append, List.length_singleton]
          simp only [List.length_cons] at hlen
          omega)
    simp [runAllow, hstep, hrest, List.append_assoc, List.replicate_succ]

lemma runAllow_append (N W : Nat) (as bs : List Int) :
    ∀ bucket : List Int,
      runAllow N W (as ++ bs) bucket =
        ((runAllow N W as bucket).1 ++
          (runAllow N W bs (runAllow N W as bucket).2).1,
         (runAllow N W bs (runAllow N W as bucket).2).2) := by
  induction as with
  | nil => intro bucket; simp [runAllow]
  | cons a as ih => intro bucket; simp [runAllow, ih]

/-- Claim C5: for one submitter, `N + 1` calls whose times all lie inside a
single window of `W` seconds are answered `true` exactly `N` times and
`false` on the `(N+1)`-th; the rejected call leaves the bucket exactly as
pruning left it (here: the `N` accepted timestamps, nothing recorded); and
once all recorded timestamps have aged past the window, the submitter is
allowed again. -/
theorem user_allowed_rate_limit (N W : Nat) (hN : 0 < N)
    (t0 tN tnext : Int) (ts : List Int) (hlen : ts.length = N)
    (hts : ∀ x ∈ ts, t0 ≤ x ∧ x ≤ t0 + (W : Int))
    (htN : t0 ≤ tN ∧ tN ≤ t0 + (W : Int))
    (hnext : ∀ x ∈ ts, x + (W : Int) < tnext) :
    runAllow N W (ts ++ [tN]) [] = (List.replicate N true ++ [false], ts)
    ∧ (user_allowed N W tnext ts).1 = true := by
  constructor
  · have hacc := runAllow_accepts N W t0 ts [] (by simp) hts (by simp [hlen])
    have hfill : ts.filter (fun x => tN - (W : Int) ≤ x) = ts := by
      refine user_allowed_keep_all N W tN ts (fun x hx => ?_)
      have := (hts x hx).1
      have := htN.2
      omega
    have hrej : user_allowed N W tN ts = (false, ts) := by
      simp only [user_allowed]
      rw [hfill, if_pos (by omega)]
    rw [runAllow_append, hacc]
    simp [runAllow, hrej, hlen]
  · have hfil : ts.filter (fun x => tnext - (W : Int) ≤ x) = [] := by
      refine List.filter_eq_nil_iff.mpr (fun x hx => ?_)
      have := hnext x hx
      simp only [decide_eq_true_eq]
      omega
    simp only [user_allowed]
    rw [hfil, if_neg (by simp; omega)]

/-- Witness for C5 at the defaults `N = 5`, `W = 60`: six calls inside one
minute, then a later call after the window has passed. -/
theorem user_allowed_rate_limit_witness :
    runAllow 5 60 ([0, 10, 20, 30, 40] ++ [50]) [] =
      (List.replicate 5 true ++ [false], [0, 10, 20, 30, 40])
    ∧ (user_allowed 5 60 200 [0, 10, 20, 30, 40]).1 = true :=
  user_allowed_rate_limit 5 60 (by decide) 0 50 200 [0, 10, 20, 30, 40]
    (by decide) (by decide) (by decide) (by decide)

/-! ## Alert dedup lemmas (claim C9) -/

/-- Claim C9: starting from a history with no report row for `url`, the
broadcast guard answers `true`; after one alerted report for `url` is
recorded at time `t`, any later check whose trailing dedup window still
covers `t` answers `false`; once `t` has aged out of the trailing window
the guard answers `true` again; and in general, over every history and
time, the guard answers `false` exactly when some alerted report for this
exact URL lies inside the trailing dedup window (`windowH` hours, default
24), and `true` otherwise. -/
theorem dedup_should_alert (windowH : Nat) (db : DB) (url : String)
    (t1 t t2 t3 : Int) (recipient : Int)
    (hfresh : ∀ r ∈ db.reports, r.2.1 ≠ url)
    (hwin : t2 - (windowH : Int) * 3600 ≤ t)
    (hexp : t < t3 - (windowH : Int) * 3600) :
    should_alert windowH db t1 url = true
    ∧ should_alert windowH (record_alert db url t recipient) t2 url = false
    ∧ should_alert windowH (record_alert db url t recipient) t3 url = true
    ∧ (∀ (db' : DB) (now : Int),
        should_alert windowH db' now url = false ↔
          ∃ r ∈ db'.reports, r.2.1 = url ∧
            now - (windowH : Int) * 3600 ≤ r.2.2 ∧
            ∃ a ∈ db'.alerts, a.1 = r.1) := by
  refine ⟨?_, ?_, ?_, ?_⟩
  · have : already_alerted_recently windowH db t1 url = false := by
      refine List.any_eq_false.mpr (fun r hr => ?_)
      simp [hfresh r hr]
    simp [should_alert, this]
  · have : already_alerted_recently windowH
        (record_alert db url t recipient) t2 url = true := by
      refine List.any_eq_true.mpr ?_
      refine ⟨(db.nextId, url, t), ?_, ?_⟩
      · simp [record_alert]
      · simp [record_alert, hwin]
    simp [should_alert, this]
  · have : already_alerted_recently windowH
        (record_alert db url t recipient) t3 url = false := by
      refine List.any_eq_false.mpr (fun r hr => ?_)
      rcases List.mem_append.mp hr with hr | hr
      · simp [hfresh r hr]
      · rcases List.mem_singleton.mp hr with rfl
        simp only [Bool.and_eq_true, beq_iff_eq, decide_eq_true_eq]
        rintro ⟨⟨-, hcut⟩, -⟩
        omega
    simp [should_alert, this]
  · intro db' now
    simp only [should_alert, Bool.not_eq_false', already_alerted_recently,
      List.any_eq_true, Bool.and_eq_true, beq_iff_eq, decide_eq_true_eq]
    constructor
    · rintro ⟨r, hr, ⟨hur, hcut⟩, ha⟩
      exact ⟨r, hr, hur, hcut, ha⟩
    · rintro ⟨r, hr, hur, hcut, ha⟩
      exact ⟨r, hr, ⟨hur, hcut⟩, ha⟩

/-- Witness for C9: an empty history, one recorded alert at time `0`, a
check one hour later inside the default 24 h window, and a check two days
later, after the alert has aged out of the window. -/
theorem dedup_should_alert_witness :
    should_alert 24 ⟨[], [], 0⟩ 0 "http://a.example" = true
    ∧ should_alert 24 (record_alert ⟨[], [], 0⟩ "http://a.example" 0 7) 3600
        "http://a.example" = false
    ∧ should_alert 24 (record_alert ⟨[], [], 0⟩ "http://a.example" 0 7) 172800
        "http://a.example" = true
    ∧ (∀ (db' : DB) (now : Int),
        should_alert 24 db' now "http://a.example" = false ↔
          ∃ r ∈ db'.reports, r.2.1 = "http://a.example" ∧
            now - (24 : Nat) * 3600 ≤ r.2.2 ∧
            ∃ a ∈ db'.alerts, a.1 = r.1) :=
  dedup_should_alert 24 ⟨[], [], 0⟩ "http://a.example" 0 0 3600 172800 7
    (by simp) (by decide) (by decide)

/-! ## Extraction lemmas (claims C6, C7) -/

lemma mem_dedupKeepFirst_go {y : String} :
    ∀ (l seen : List String), y ∈ dedupKeepFirst.go seen l → y ∈ l := by
  intro l
  induction l with
  | nil => intro seen h; simp [dedupKeepFirst.go] at h
  | cons x xs ih =>
    intro seen h
    rw [dedupKeepFirst.go] at h
    by_cases hc : seen.contains x
    · rw [if_pos hc] at h
      exact List.mem_cons_of_mem _ (ih seen h)
    · rw [if_neg hc] at h
      rcases List.mem_cons.mp h with rfl | h
      · exact List.mem_cons_self _ _
      · exact List.mem_cons_of_mem _ (ih (x :: seen) h)

lemma mem_dedupKeepFirst {y : String} {l : List String}
    (h : y ∈ dedupKeepFirst l) : y ∈ l :=
  mem_dedupKeepFirst_go l [] h

lemma nodup_dedupKeepFirst_go :
    ∀ (l seen : List String),
      (dedupKeepFirst.go seen l).Nodup ∧
        ∀ y ∈ dedupKeepFirst.go seen l, y ∉ seen := by
  intro l
  induction l with
  | nil => intro seen; simp [dedupKeepFirst.go]
  | cons x xs ih =>
    intro seen
    rw [dedupKeepFirst.go]
    by_cases hc : seen.contains x
    · rw [if_pos hc]
      exact ih seen
    · rw [if_neg hc]
      obtain ⟨hnd, hnotin⟩ := ih (x :: seen)
      refine ⟨List.nodup_cons.mpr ⟨fun hmem => ?_, hnd⟩, fun y hy => ?_⟩
      · exact hnotin x hmem (List.mem_cons_self _ _)
      · rcases List.mem_cons.mp hy with rfl | hy
        · intro hsy
          exact hc (List.contains_iff_exists_mem_beq.mpr ⟨y, hsy, by simp⟩)
        · intro hsy
          exact hnotin y hy (List.mem_cons_of_mem _ hsy)

lemma nodup_dedupKeepFirst (l : List String) : (dedupKeepFirst l).Nodup :=
  (nodup_dedupKeepFirst_go l []).1

lemma validators_url_of_normalize {s u : String}
    (h : normalize_url s = some u) : validators_url u = true := by
  unfold normalize_url at h
  by_cases hv : validUrlChars (normalizeChars s.toList)
  · rw [if_pos hv] at h
    cases h
    exact hv
  · rw [if_neg hv] at h
    cases h

/-- Counterexample to claim C6 as stated: on the input
`"http://b.example http://a.example"` the candidate substrings occur in the
order `b` before `a` (third conjunct), yet enumerating the candidate set in
the order `a` before `b` — a permutation of its contents, and a CPython
`set` promises no particular iteration order — makes `extract_urls` return
the two validated URLs in an order that is not first-seen order. -/
theorem extract_urls_order_counterexample :
    candidates "http://b.example http://a.example" [] =
      ["http://b.example", "http://a.example"]
    ∧ (["http://a.example", "http://b.example"] : List String).Perm
        (candidates "http://b.example http://a.example" [])
    ∧ extract_urls_with_order ["http://a.example", "http://b.example"] =
        ["http://a.example", "http://b.example"]
    ∧ (["http://a.example", "http://b.example"] : List String) ≠
        ["http://b.example", "http://a.example"] :=
  ⟨rfl, by decide, rfl, by decide⟩

/-- Claim C6, amended: for every input text and every enumeration of the
candidate set, the normalizer returns a list of distinct, validated,
absolute URLs — no duplicates, and every element passes the strict URL
syntax check — but in the iteration order of the internal Python set of
candidates, which is not guaranteed to be the first-seen order of the
input. -/
theorem extract_urls_distinct_valid (text : String) (entityUrls : List String)
    (iterOrder : List String)
    (hperm : iterOrder.Perm (candidates text entityUrls)) :
    (extract_urls_with_order iterOrder).Nodup
    ∧ ∀ u ∈ extract_urls_with_order iterOrder, validators_url u = true := by
  refine ⟨nodup_dedupKeepFirst _, fun u hu => ?_⟩
  have hmem := mem_dedupKeepFirst hu
  obtain ⟨a, _, ha⟩ := List.mem_filterMap.mp hmem
  exact validators_url_of_normalize ha

/-- Witness for C6 (amended): a single-candidate input. -/
theorem extract_urls_distinct_valid_witness :
    (extract_urls_with_order ["http://a.example"]).Nodup
    ∧ ∀ u ∈ extract_urls_with_order ["http://a.example"],
        validators_url u = true :=
  extract_urls_distinct_valid "http://a.example" [] ["http://a.example"]
    (by decide)

/-- Claim C7: on `"check http://evil[.]example.com/login now"` the only
regex candidate is `"http://evil[.]example.com/login"` (so every set
enumeration is that singleton), and extraction returns exactly
`["http://evil.example.com/login"]`: the `[.]` is undone, the trailing
text is not part of the `[^\s]+` match, and the result validates. -/
theorem extract_urls_defang_example :
    candidates "check http://evil[.]example.com/login now" [] =
      ["http://evil[.]example.com/login"]
    ∧ ∀ iterOrder : List String,
        iterOrder.Perm (candidates "check http://evil[.]example.com/login now" []) →
        extract_urls_with_order iterOrder = ["http://evil.example.com/login"] := by
  refine ⟨rfl, fun iterOrder hperm => ?_⟩
  rw [show candidates "check http://evil[.]example.com/login now" [] =
    ["http://evil[.]example.com/login"] from rfl] at hperm
  rw [List.perm_singleton.mp hperm]
  rfl

/-- Witness for C7: the singleton enumeration itself. -/
theorem extract_urls_defang_example_witness :
    extract_urls_with_order ["http://evil[.]example.com/login"] =
      ["http://evil.example.com/login"] :=
  extract_urls_defang_example.2 ["http://evil[.]example.com/login"] (by decide)

/-! ## Normalization idempotence lemmas (claim C8) -/

lemma schemeChar_props {c : Char} (h : c.toLower ∈ httpsPat) :
    isSpaceChar c = false ∧ c ≠ '[' := by
  constructor
  · by_contra hsp
    rw [Bool.not_eq_false] at hsp
    simp only [isSpaceChar, Bool.or_eq_true, beq_iff_eq] at hsp
    rcases hsp with ((((rfl | rfl) | rfl) | rfl) | rfl) | rfl <;>
      exact absurd h (by decide)
  · rintro rfl
    exact absurd h (by decide)

lemma hostChar_props {c : Char} (h : isHostChar c = true) :
    isSpaceChar c = false ∧ c ≠ '[' := by
  constructor
  · by_contra hsp
    rw [Bool.not_eq_false] at hsp
    simp only [isSpaceChar, Bool.or_eq_true, beq_iff_eq] at hsp
    rcases hsp with ((((rfl | rfl) | rfl) | rfl) | rfl) | rfl <;>
      exact absurd h (by decide)
  · rintro rfl
    exact absurd h (by decide)

lemma pathChar_props {c : Char} (h : isPathChar c = true) :
    isSpaceChar c = false ∧ c ≠ '[' := by
  constructor
  · by_contra hsp
    rw [Bool.not_eq_false] at hsp
    simp only [isSpaceChar, Bool.or_eq_true, beq_iff_eq] at hsp
    rcases hsp with ((((rfl | rfl) | rfl) | rfl) | rfl) | rfl <;>
      exact absurd h (by decide)
  · rintro rfl
    exact absurd h (by decide)

lemma hostPath_chars {r : List Char}
    (h : validUrlChars.validHostPath r = true) :
    ∀ c ∈ r, isSpaceChar c = false ∧ c ≠ '[' := by
  intro c hc
  simp only [validUrlChars.validHostPath, Bool.and_eq_true] at h
  obtain ⟨hhost, hpath⟩ := h
  simp only [hostOk, Bool.and_eq_true] at hhost
  have hall : (r.takeWhile (fun c => !(c == '/'))).all isHostChar = true :=
    hhost.1.1.1.2
  rw [← List.takeWhile_append_dropWhile (p := fun c => !(c == '/')) (l := r)]
    at hc
  rcases List.mem_append.mp hc with hc | hc
  · exact hostChar_props (List.all_eq_true.mp hall c hc)
  · exact pathChar_props (List.all_eq_true.mp hpath c hc)

lemma validUrlChars_char_props {cs : List Char}
    (h : validUrlChars cs = true) :
    ∀ c ∈ cs, isSpaceChar c = false ∧ c ≠ '[' := by
  intro c hc
  unfold validUrlChars at h
  by_cases h1 : startsWithCI httpPat cs = true
  · rw [if_pos h1] at h
    have hmap : (cs.take httpPat.length).map Char.toLower = httpPat := by
      simpa [startsWithCI] using h1
    rw [← List.take_append_drop httpPat.length cs] at hc
    rcases List.mem_append.mp hc with hc | hc
    · refine schemeChar_props ?_
      have hmem : c.toLower ∈ (cs.take httpPat.length).map Char.toLower :=
        List.mem_map_of_mem _ hc
      rw [hmap] at hmem
      exact (by decide : ∀ x ∈ httpPat, x ∈ httpsPat) _ hmem
    · have h7 : httpPat.length = 7 := rfl
      rw [h7] at hc
      exact hostPath_chars h c hc
  · rw [if_neg h1] at h
    by_cases h2 : startsWithCI httpsPat cs = true
    · rw [if_pos h2] at h
      have hmap : (cs.take httpsPat.length).map Char.toLower = httpsPat := by
        simpa [startsWithCI] using h2
      rw [← List.take_append_drop httpsPat.length cs] at hc
      rcases List.mem_append.mp hc with hc | hc
      · refine schemeChar_props ?_
        have hmem : c.toLower ∈ (cs.take httpsPat.length).map Char.toLower :=
          List.mem_map_of_mem _ hc
        rw [hmap] at hmem
        exact hmem
      · have h8 : httpsPat.length = 8 := rfl
        rw [h8] at hc
        exact hostPath_chars h c hc
    · rw [if_neg h2] at h
      simp at h

lemma validUrlChars_scheme {cs : List Char} (h : validUrlChars cs = true) :
    startsWithCI httpPat cs = true ∨ startsWithCI httpsPat cs = true := by
  unfold validUrlChars at h
  by_cases h1 : startsWithCI httpPat cs = true
  · exact Or.inl h1
  · rw [if_neg h1] at h
    by_cases h2 : startsWithCI httpsPat cs = true
    · exact Or.inr h2
    · rw [if_neg h2] at h
      simp at h

lemma dropWhile_eq_self_of_all {p : Char → Bool} {l : List Char}
    (h : ∀ c ∈ l, p c = false) : l.dropWhile p = l := by
  cases l with
  | nil => rfl
  | cons c cs =>
    exact List.dropWhile_cons_of_neg (by simp [h c (List.mem_cons_self c cs)])

lemma rstripWhile_eq_self_of_all {p : Char → Bool} {l : List Char}
    (h : ∀ c ∈ l, p c = false) : rstripWhile p l = l := by
  unfold rstripWhile
  rw [dropWhile_eq_self_of_all (fun c hc => h c (List.mem_reverse.mp hc)),
    List.reverse_reverse]

lemma strip_eq_self_of_all {l : List Char}
    (h : ∀ c ∈ l, isSpaceChar c = false) : strip l = l := by
  unfold strip
  rw [dropWhile_eq_self_of_all h, rstripWhile_eq_self_of_all h]

lemma head?_dropWhile_false {p : Char → Bool} {l : List Char} {c : Char}
    (h : (l.dropWhile p).head? = some c) : p c = false := by
  have hd := List.head?_dropWhile_not p l
  rw [h] at hd
  exact hd

lemma getLast?_rstripWhile_false {p : Char → Bool} {l : List Char} {c : Char}
    (h : (rstripWhile p l).getLast? = some c) : p c = false := by
  unfold rstripWhile at h
  rw [List.getLast?_reverse] at h
  exact head?_dropWhile_false h

lemma rstripWhile_eq_self_of_getLast {p : Char → Bool} {l : List Char}
    {c : Char} (h : l.getLast? = some c) (hc : p c = false) :
    rstripWhile p l = l := by
  have hrev : l.reverse.head? = some c := by
    rw [List.head?_reverse]
    exact h
  unfold rstripWhile
  cases hr : l.reverse with
  | nil =>
    rw [hr] at hrev
    simp at hrev
  | cons d ds =>
    rw [hr] at hrev
    have hd : d = c := by
      simpa using hrev
    rw [List.dropWhile_cons_of_neg (by simp [hd, hc])]
    have hl := congrArg List.reverse hr
    rw [List.reverse_reverse] at hl
    exact hl.symm

lemma replaceDefang_eq_self : ∀ {l : List Char}, '[' ∉ l →
    replaceDefang l = l := by
  intro l
  induction l with
  | nil => intro _; rfl
  | cons c cs ih =>
    intro h
    have hc : c ≠ '[' := by
      rintro rfl
      exact h (List.mem_cons_self _ _)
    have hcs : '[' ∉ cs := fun hm => h (List.mem_cons_of_mem _ hm)
    cases cs with
    | nil => rfl
    | cons d cs' =>
      cases cs' with
      | nil => rfl
      | cons e cs'' =>
        simp only [replaceDefang]
        rw [if_neg (show ¬(c = '[' ∧ d = '.' ∧ e = ']') from
          fun hand => hc hand.1), ih hcs]

/-- Claim C8: normalization is idempotent on its own output — whenever
`normalize_url t` produces `u`, running `normalize_url` on `u` returns the
same `u` unchanged: `u` carries a scheme already (so no second `http://` is
prepended), contains no whitespace or `[.]` (the validator admits neither),
and was already stripped of trailing punctuation. -/
theorem normalize_url_idempotent (t u : String)
    (h : normalize_url t = some u) : normalize_url u = some u := by
  simp only [normalize_url] at h
  by_cases hv : validUrlChars (normalizeChars t.toList) = true
  swap
  · rw [if_neg hv] at h
    cases h
  rw [if_pos hv] at h
  have hu : u = String.mk (normalizeChars t.toList) := (Option.some.inj h).symm
  have hulist : u.toList = normalizeChars t.toList := by
    rw [hu]
    rfl
  -- character facts about the produced URL
  have hprops := validUrlChars_char_props hv
  have hnospace : ∀ c ∈ normalizeChars t.toList, isSpaceChar c = false :=
    fun c hc => (hprops c hc).1
  have hnobr : '[' ∉ normalizeChars t.toList :=
    fun hm => (hprops '[' hm).2 rfl
  -- the produced URL never ends in a character of the rstrip set
  have hshape : normalizeChars t.toList =
      (if (startsWithCI httpPat (rstripPunct (replaceDefang (strip t.toList))) ||
          startsWithCI httpsPat (rstripPunct (replaceDefang (strip t.toList)))) = true then
        rstripPunct (replaceDefang (strip t.toList))
      else httpPat ++ rstripPunct (replaceDefang (strip t.toList))) := rfl
  have hfix3 : rstripPunct (normalizeChars t.toList) = normalizeChars t.toList := by
    by_cases hcond :
        (startsWithCI httpPat (rstripPunct (replaceDefang (strip t.toList))) ||
          startsWithCI httpsPat (rstripPunct (replaceDefang (strip t.toList)))) = true
    · have hcse : normalizeChars t.toList =
          rstripPunct (replaceDefang (strip t.toList)) := by
        rw [hshape, if_pos hcond]
      have hne : rstripPunct (replaceDefang (strip t.toList)) ≠ [] := by
        intro hnil
        rw [hcse, hnil] at hv
        exact absurd hv (by decide)
      obtain ⟨c, hc⟩ : ∃ c,
          (rstripPunct (replaceDefang (strip t.toList))).getLast? = some c := by
        cases hl : (rstripPunct (replaceDefang (strip t.toList))).getLast? with
        | none => exact absurd (List.getLast?_eq_none_iff.mp hl) hne
        | some c => exact ⟨c, rfl⟩
      rw [hcse]
      exact rstripWhile_eq_self_of_getLast hc (getLast?_rstripWhile_false hc)
    · have hcse : normalizeChars t.toList =
          httpPat ++ rstripPunct (replaceDefang (strip t.toList)) := by
        rw [hshape, if_neg hcond]
      by_cases hne : rstripPunct (replaceDefang (strip t.toList)) = []
      · rw [hcse, hne, List.append_nil] at hv
        exact absurd hv (by decide)
      · obtain ⟨c, hc⟩ : ∃ c,
            (rstripPunct (replaceDefang (strip t.toList))).getLast? = some c := by
          cases hl : (rstripPunct (replaceDefang (strip t.toList))).getLast? with
          | none => exact absurd (List.getLast?_eq_none_iff.mp hl) hne
          | some c => exact ⟨c, rfl⟩
        have hlastcs : (normalizeChars t.toList).getLast? = some c := by
          rw [hcse, List.getLast?_append, hc]
          rfl
        exact rstripWhile_eq_self_of_getLast hlastcs
          (getLast?_rstripWhile_false hc)
  -- the second pass rewrites nothing
  have hnorm : normalizeChars u.toList = normalizeChars t.toList := by
    rw [hulist]
    have h1 : strip (normalizeChars t.toList) = normalizeChars t.toList :=
      strip_eq_self_of_all hnospace
    have h2 : replaceDefang (normalizeChars t.toList) = normalizeChars t.toList :=
      replaceDefang_eq_self hnobr
    have hcond : (startsWithCI httpPat (normalizeChars t.toList) ||
        startsWithCI httpsPat (normalizeChars t.toList)) = true := by
      rw [Bool.or_eq_true]
      exact validUrlChars_scheme hv
    show (if (startsWithCI httpPat
          (rstripPunct (replaceDefang (strip (normalizeChars t.toList)))) ||
        startsWithCI httpsPat
          (rstripPunct (replaceDefang (strip (normalizeChars t.toList))))) = true then
        rstripPunct (replaceDefang (strip (normalizeChars t.toList)))
      else httpPat ++ rstripPunct (replaceDefang (strip (normalizeChars t.toList)))) =
      normalizeChars t.toList
    rw [h1, h2, hfix3, if_pos hcond]
  simp only [normalize_url]
  rw [hnorm, if_pos hv, hu]

/-- Witness for C8: normalizing a defanged, scheme-less candidate produces
`"http://a.example.com"`, on which normalization is the identity. -/
theorem normalize_url_idempotent_witness :
    normalize_url "http://a.example.com" = some "http://a.example.com" :=
  normalize_url_idempotent "a.example[.]com" "http://a.example.com" (by decide)
